import Mathlib

/-!
Verification of the context-budgeted RAG pipeline in `server.py`:
token counting and greedy prefix truncation of retrieved documents
(`token_count`, `truncate_documents`), the rate-limit retry controller
(`with_retry`), and the HTTP request orchestration (`mainroute`).

Machine integers are modelled as `Nat`/`Int` (Python integers are unbounded,
so no wrap-around is needed); float-valued waits are modelled as `ℚ`;
a tokenizer encoding is any function `String → List Nat`.
-/

/-- `token_count` from server.py: the length of the tokenizer encoding of
the text (`len(enc.encode(text))`). -/
def token_count (text : String) (enc : String → List Nat) : Nat :=
  (enc text).length

/-- The rendering `f"{date}: {content}"` of one retrieved `(date, content)`
document inside the `truncate_documents` loop. -/
def renderDoc (doc : String × String) : String :=
  doc.1 ++ ": " ++ doc.2

/-- The `for date, content in docs` loop of `truncate_documents`:
carries the running `total`, appends each rendered entry while
`total + t ≤ budget`, and stops (`break`) at the first entry that would
push the total beyond the budget. The Python `selected` accumulator is
returned as the list of entries selected from this point on. -/
def truncateLoop (enc : String → List Nat) (budget : Nat) :
    List (String × String) → Nat → List String
  | [], _ => []
  | doc :: rest, total =>
    if total + token_count (renderDoc doc) enc > budget then []
    else renderDoc doc :: truncateLoop enc budget rest (total + token_count (renderDoc doc) enc)

/-- `truncate_documents(docs, enc, budget)` from server.py:
greedy prefix selection followed by `"\n".join(selected)`. -/
def truncate_documents (docs : List (String × String)) (enc : String → List Nat)
    (budget : Nat) : String :=
  String.intercalate "\n" (truncateLoop enc budget docs 0)

/-- A concrete tokenizer encoding charging one token per character,
used to instantiate claims at concrete inputs. -/
def charEnc : String → List Nat :=
  fun s => s.data.map (fun _ => 0)

/-- The running total plus the token counts of the entries still to be
selected never exceeds the budget, provided the running total has not
already done so. -/
theorem truncateLoop_sum_le (enc : String → List Nat) (budget : Nat) :
    ∀ (docs : List (String × String)) (total : Nat), total ≤ budget →
      total + ((truncateLoop enc budget docs total).map (fun e => token_count e enc)).sum
        ≤ budget := by
  intro docs
  induction docs with
  | nil => intro total h; simpa [truncateLoop] using h
  | cons d rest ih =>
    intro total h
    by_cases hc : total + token_count (renderDoc d) enc > budget
    · simpa [truncateLoop, hc] using h
    · have h' : total + token_count (renderDoc d) enc ≤ budget := Nat.le_of_not_lt hc
      have := ih (total + token_count (renderDoc d) enc) h'
      simp only [truncateLoop, hc, if_false, List.map_cons, List.sum_cons]
      omega

/-- The selected entries are the renderings of a prefix of the input. -/
theorem truncateLoop_eq_take (enc : String → List Nat) (budget : Nat) :
    ∀ (docs : List (String × String)) (total : Nat),
      ∃ n, truncateLoop enc budget docs total = (docs.take n).map renderDoc := by
  intro docs
  induction docs with
  | nil => intro total; exact ⟨0, rfl⟩
  | cons d rest ih =>
    intro total
    by_cases hc : total + token_count (renderDoc d) enc > budget
    · exact ⟨0, by simp [truncateLoop, hc]⟩
    · obtain ⟨n, hn⟩ := ih (total + token_count (renderDoc d) enc)
      exact ⟨n + 1, by simp [truncateLoop, hc, hn]⟩

/-- C1 (counterexample): with the character tokenizer, two documents of
4 tokens each both fit a budget of 8, but the joined block carries an
uncounted newline separator, so its token count is 9 > 8: the claim that
the token count of the returned context block never exceeds the budget is
false for an arbitrary tokenizer encoding. -/
theorem c1_counterexample :
    ¬ (token_count (truncate_documents [("a", "b"), ("c", "d")] charEnc 8) charEnc ≤ 8) := by
  decide

/-- C1 (amended): for every document sequence, tokenizer encoding and
budget, the SUM of the per-entry token counts of the entries selected into
the context block is at most the budget (the joined block itself may exceed
the budget only by the tokens of the `"\n"` separators, which the loop does
not count). -/
theorem c1_amended_token_sum (docs : List (String × String))
    (enc : String → List Nat) (budget : Nat) :
    ((truncateLoop enc budget docs 0).map (fun e => token_count e enc)).sum ≤ budget ∧
      truncate_documents docs enc budget =
        String.intercalate "\n" (truncateLoop enc budget docs 0) := by
  constructor
  · simpa using truncateLoop_sum_le enc budget docs 0 (Nat.zero_le budget)
  · rfl

/-- C5: the documents rendered into the context block are exactly a
contiguous prefix of the input order. -/
theorem c5_prefix (docs : List (String × String)) (enc : String → List Nat)
    (budget : Nat) :
    ∃ n, truncate_documents docs enc budget =
      String.intercalate "\n" ((docs.take n).map renderDoc) := by
  obtain ⟨n, hn⟩ := truncateLoop_eq_take enc budget docs 0
  exact ⟨n, by rw [truncate_documents, hn]⟩

/-- C6: if the first document's rendered form `"<date>: <content>"` has a
token count strictly exceeding the budget, `truncate_documents` returns the
empty string (a normal return value of the total function). -/
theorem c6_first_too_large (d c : String) (rest : List (String × String))
    (enc : String → List Nat) (budget : Nat)
    (h : token_count (d ++ ": " ++ c) enc > budget) :
    truncate_documents ((d, c) :: rest) enc budget = "" := by
  have h0 : budget < token_count (renderDoc (d, c)) enc := by
    simpa [renderDoc] using h
  simp only [truncate_documents, truncateLoop, Nat.zero_add, if_pos h0]
  rfl

/-- Witness for C6 at a concrete input: `"a: bb"` has 5 tokens under the
character tokenizer, exceeding a budget of 3, and the block is empty. -/
theorem c6_first_too_large_witness :
    truncate_documents [("a", "bb")] charEnc 3 = "" :=
  c6_first_too_large "a" "bb" [] charEnc 3 (by decide)

/-!
## Retry controller (`with_retry` in server.py)

A rate-limit error may carry a response with headers. For each of the two
headers the controller inspects, the outer `Option` records whether the
header is present, and the inner `Option ℚ` records the result of
`float(...)` on its value (`none` = the value does not parse, which in the
source raises `ValueError` into the surrounding `except`).
-/

/-- The retry-timing headers of a rate-limit error response. -/
structure Headers where
  retryAfter : Option (Option ℚ)
  resetAfter : Option (Option ℚ)
deriving DecidableEq

/-- Outcome of one invocation of the wrapped zero-argument provider call:
a result, a `RateLimitError` (optionally carrying a response with headers;
`none` models `e.response is None` or a missing attribute), or any other
raised error. -/
inductive CallResult (α : Type) where
  | success (val : α)
  | rateLimited (resp : Option Headers)
  | otherError (msg : String)
deriving DecidableEq

/-- How a `with_retry` invocation finishes: the call's result, the final
`RateLimitError` re-raised after the retry bound is reached, another error
re-raised, or the implicit `None` returned when the loop body never runs. -/
inductive RetryOutcome (α : Type) where
  | ok (val : α)
  | exhausted (resp : Option Headers)
  | failed (msg : String)
  | noResult
deriving DecidableEq

/-- What one `with_retry` invocation does: its outcome, the sequence of
`sleep` durations in order, and how many times the wrapped call ran. -/
structure RetryResult (α : Type) where
  outcome : RetryOutcome α
  waits : List ℚ
  calls : Nat
deriving DecidableEq

/-- The wait-duration computation of `with_retry`: starts from
`wait_time = backoff`; if a response with headers is present, a parseable
`retry-after` header overrides it, else a parseable `x-ratelimit-reset-after`
header overrides it; a present but unparseable header raises `ValueError`
out of the `if` chain into the `except`, leaving `wait_time = backoff`. -/
def computeWait (backoff : ℚ) (resp : Option Headers) : ℚ :=
  match resp with
  | none => backoff
  | some h =>
    match h.retryAfter with
    | some (some x) => x
    | some none => backoff
    | none =>
      match h.resetAfter with
      | some (some y) => y
      | some none => backoff
      | none => backoff

/-- The backoff update after a sleep: `backoff = min(backoff * 2, 60)`. -/
def nextBackoff (b : ℚ) : ℚ :=
  min (b * 2) 60

/-- The `while retry_count < max_retries` loop of `with_retry`, embedded by
structural recursion on `remaining = max_retries - retry_count` (the loop
guard `retry_count < max_retries` is `remaining > 0`, and the post-increment
check `retry_count >= max_retries` is `remaining - 1 = 0`). `callIdx`
numbers the invocations of the wrapped call so that a call's behaviour can
vary between attempts. -/
def withRetryGo {α : Type} (call : Nat → CallResult α) :
    Nat → ℚ → Nat → RetryResult α
  | 0, _, _ => ⟨RetryOutcome.noResult, [], 0⟩
  | remaining + 1, backoff, callIdx =>
    match call callIdx with
    | CallResult.success v => ⟨RetryOutcome.ok v, [], 1⟩
    | CallResult.otherError msg => ⟨RetryOutcome.failed msg, [], 1⟩
    | CallResult.rateLimited resp =>
      if remaining = 0 then ⟨RetryOutcome.exhausted resp, [], 1⟩
      else
        let r := withRetryGo call remaining (nextBackoff backoff) (callIdx + 1)
        ⟨r.outcome, computeWait backoff resp :: r.waits, r.calls + 1⟩

/-- `with_retry(api_call, max_retries)` from server.py: `backoff` starts at
1, `retry_count` at 0 (so `remaining` starts at `max_retries`, clamped to 0
for a non-positive `max_retries`, where the loop never runs). -/
def with_retry {α : Type} (call : Nat → CallResult α) (maxRetries : Int) :
    RetryResult α :=
  withRetryGo call maxRetries.toNat 1 0

/-- The fallback backoff value before the `n`-th sleep when no header ever
overrides it: `1` initially, then doubled and capped at 60 after each sleep. -/
def backoffSeq (n : Nat) : ℚ :=
  nextBackoff^[n] 1

/-- Last permitted attempt: a rate-limit error is re-raised at once. -/
theorem withRetryGo_one_rl {α : Type} (call : Nat → CallResult α) (b : ℚ)
    (idx : Nat) (resp : Option Headers)
    (hcall : call idx = CallResult.rateLimited resp) :
    withRetryGo call 1 b idx = ⟨RetryOutcome.exhausted resp, [], 1⟩ := by
  simp [withRetryGo, hcall]

/-- A rate-limited attempt with retry budget left: sleep for the computed
wait, double-and-cap the backoff, and continue with the next invocation. -/
theorem withRetryGo_step_rl {α : Type} (call : Nat → CallResult α) (n : Nat)
    (b : ℚ) (idx : Nat) (resp : Option Headers)
    (hcall : call idx = CallResult.rateLimited resp) (hn : n ≠ 0) :
    withRetryGo call (n + 1) b idx =
      ⟨(withRetryGo call n (nextBackoff b) (idx + 1)).outcome,
        computeWait b resp :: (withRetryGo call n (nextBackoff b) (idx + 1)).waits,
        (withRetryGo call n (nextBackoff b) (idx + 1)).calls + 1⟩ := by
  simp [withRetryGo, hcall, hn]

/-- On an always-rate-limited call, the loop runs the call once per unit of
remaining budget and finishes by re-raising the last rate-limit error. -/
theorem withRetryGo_rateLimited {α : Type} (resp : Nat → Option Headers) :
    ∀ (fuel : Nat) (b : ℚ) (idx : Nat), 1 ≤ fuel →
      ((withRetryGo (fun i => (CallResult.rateLimited (resp i) : CallResult α))
          fuel b idx).outcome = RetryOutcome.exhausted (resp (idx + (fuel - 1)))) ∧
      (withRetryGo (fun i => (CallResult.rateLimited (resp i) : CallResult α))
          fuel b idx).calls = fuel := by
  intro fuel
  induction fuel with
  | zero => intro b idx h; omega
  | succ n ih =>
    intro b idx _
    by_cases hn : n = 0
    · subst hn
      rw [withRetryGo_one_rl _ b idx (resp idx) rfl]
      simp
    · have h1 : 1 ≤ n := Nat.one_le_iff_ne_zero.mpr hn
      obtain ⟨ho, hc⟩ := ih (nextBackoff b) (idx + 1) h1
      rw [withRetryGo_step_rl _ n b idx (resp idx) rfl hn]
      dsimp only
      rw [ho, hc]
      refine ⟨?_, rfl⟩
      have he : idx + 1 + (n - 1) = idx + (n + 1 - 1) := by omega
      rw [he]

/-- On an always-rate-limited call with no usable headers, the recorded
sleep durations are successive iterates of the backoff update applied to
the current backoff value. -/
theorem withRetryGo_waits_rl_none {α : Type} :
    ∀ (fuel : Nat) (b : ℚ) (idx : Nat),
      (withRetryGo (fun _ => (CallResult.rateLimited none : CallResult α))
          fuel b idx).waits
        = (List.range (fuel - 1)).map (fun j => nextBackoff^[j] b) := by
  intro fuel
  induction fuel with
  | zero => intro b idx; rfl
  | succ n ih =>
    intro b idx
    cases n with
    | zero => rfl
    | succ m =>
      rw [withRetryGo_step_rl _ (m + 1) b idx none rfl (Nat.succ_ne_zero m)]
      dsimp only
      rw [ih (nextBackoff b) (idx + 1)]
      simp only [Nat.add_sub_cancel, List.range_succ_eq_map, List.map_cons,
        List.map_map]
      refine congrArg₂ List.cons rfl ?_
      apply List.map_congr_left
      intro j _
      simp [Function.comp, Function.iterate_succ_apply]

/-- Every fallback backoff value lies in `[1, 60]`. -/
theorem backoffSeq_invariant : ∀ n : Nat, 1 ≤ backoffSeq n ∧ backoffSeq n ≤ 60 := by
  intro n
  induction n with
  | zero => norm_num [backoffSeq]
  | succ n ih =>
    have h : backoffSeq (n + 1) = nextBackoff (backoffSeq n) :=
      Function.iterate_succ_apply' nextBackoff n 1
    constructor
    · rw [h, nextBackoff]
      exact le_min (by linarith [ih.1]) (by norm_num)
    · rw [h, nextBackoff]
      exact min_le_right _ _

/-- The fallback backoff values are non-decreasing. -/
theorem backoffSeq_mono : Monotone backoffSeq := by
  apply monotone_nat_of_le_succ
  intro n
  have h : backoffSeq (n + 1) = nextBackoff (backoffSeq n) :=
    Function.iterate_succ_apply' nextBackoff n 1
  obtain ⟨h1, h60⟩ := backoffSeq_invariant n
  rw [h, nextBackoff]
  exact le_min (by linarith) h60

/-- C2: if the wrapped call rate-limits on every invocation, `with_retry`
with `max_retries = m ≥ 1` runs the call exactly `m` times and finishes by
re-raising the last rate-limit error (the retry-exhausted failure carrying
the last provider error); no rate-limit error surfaces before that. -/
theorem c2_exhausts_after_max_retries {α : Type} (m : Nat) (hm : 1 ≤ m)
    (resp : Nat → Option Headers) :
    ((with_retry (fun i => (CallResult.rateLimited (resp i) : CallResult α))
        (m : Int)).outcome = RetryOutcome.exhausted (resp (m - 1))) ∧
    (with_retry (fun i => (CallResult.rateLimited (resp i) : CallResult α))
        (m : Int)).calls = m := by
  have ht : ((m : Int)).toNat = m := Int.toNat_natCast m
  have := withRetryGo_rateLimited (α := α) resp m 1 0 hm
  rw [with_retry, ht]
  simpa using this

/-- Witness for C2: with `max_retries = 3` and an always-rate-limited call,
the call runs exactly 3 times and the last error is re-raised. -/
theorem c2_witness :
    ((with_retry (fun _ => (CallResult.rateLimited none : CallResult Unit))
        (3 : Int)).outcome = RetryOutcome.exhausted none) ∧
    (with_retry (fun _ => (CallResult.rateLimited none : CallResult Unit))
        (3 : Int)).calls = 3 :=
  c2_exhausts_after_max_retries 3 (by norm_num) (fun _ => none)

/-- C3: the wait before a retried rate-limited attempt is the parseable
`retry-after` header value if that header is present, else the parseable
`x-ratelimit-reset-after` header value, else the current backoff value; the
backoff values start at 1 and each subsequent one is the previous doubled
and capped at 60, so the fallback waits (those actually slept when no
header ever overrides, as recorded in the wait trace) are non-decreasing. -/
theorem c3_wait_priority_and_backoff :
    (∀ (b x : ℚ) (r : Option (Option ℚ)),
        computeWait b (some ⟨some (some x), r⟩) = x) ∧
    (∀ (b y : ℚ), computeWait b (some ⟨none, some (some y)⟩) = y) ∧
    (∀ b : ℚ, computeWait b none = b ∧ computeWait b (some ⟨none, none⟩) = b) ∧
    backoffSeq 0 = 1 ∧
    (∀ n : Nat, backoffSeq (n + 1) = min (backoffSeq n * 2) 60) ∧
    (∀ m : Nat,
        (with_retry (fun _ => (CallResult.rateLimited none : CallResult Unit))
            (m : Int)).waits = (List.range (m - 1)).map backoffSeq) ∧
    Monotone backoffSeq := by
  refine ⟨fun b x r => rfl, fun b y => rfl, fun b => ⟨rfl, rfl⟩, rfl, ?_, ?_, backoffSeq_mono⟩
  · intro n
    exact Function.iterate_succ_apply' nextBackoff n 1
  · intro m
    have ht : ((m : Int)).toNat = m := Int.toNat_natCast m
    rw [with_retry, ht]
    exact withRetryGo_waits_rl_none m 1 0

/-- C4: a non-rate-limit failure on the first invocation propagates
immediately: one call, no sleeps, the error re-raised, for any remaining
retry budget. -/
theorem c4_other_error_propagates {α : Type} (m : Int) (hm : 1 ≤ m)
    (call : Nat → CallResult α) (msg : String)
    (h : call 0 = CallResult.otherError msg) :
    with_retry call m = ⟨RetryOutcome.failed msg, [], 1⟩ := by
  obtain ⟨k, hk⟩ : ∃ k : Nat, m.toNat = k + 1 := ⟨m.toNat - 1, by omega⟩
  rw [with_retry, hk]
  simp [withRetryGo, h]

/-- Witness for C4: a call failing with a generic error under
`max_retries = 5` fails at once with one invocation and no sleeps. -/
theorem c4_witness :
    with_retry (fun _ => (CallResult.otherError "boom" : CallResult Unit)) (5 : Int)
      = ⟨RetryOutcome.failed "boom", [], 1⟩ :=
  c4_other_error_propagates 5 (by norm_num) _ "boom" rfl

/-- C9: with a non-positive `max_retries`, the `while` loop never runs, so
`with_retry` makes no call, sleeps never, raises nothing, and yields the
implicit `None`. -/
theorem c9_nonpositive_max_retries {α : Type} (call : Nat → CallResult α)
    (m : Int) (hm : m ≤ 0) :
    with_retry call m = ⟨RetryOutcome.noResult, [], 0⟩ := by
  rw [with_retry, Int.toNat_of_nonpos hm]
  rfl

/-- Witness for C9 at `max_retries = -2`. -/
theorem c9_witness :
    with_retry (fun _ => (CallResult.success () : CallResult Unit)) (-2 : Int)
      = ⟨RetryOutcome.noResult, [], 0⟩ :=
  c9_nonpositive_max_retries _ (-2) (by norm_num)

/-- C10: a present but unparseable `retry-after` (or
`x-ratelimit-reset-after`) header value does not fail the controller: the
wait falls back to the current backoff value (1 on the first attempt) and
the retry proceeds normally, here succeeding on the second invocation. -/
theorem c10_unparseable_header_falls_back {α : Type} (m : Int) (hm : 2 ≤ m)
    (call : Nat → CallResult α) (hdr : Headers)
    (hu : hdr.retryAfter = some none ∨
          (hdr.retryAfter = none ∧ hdr.resetAfter = some none))
    (v : α) (h0 : call 0 = CallResult.rateLimited (some hdr))
    (h1 : call 1 = CallResult.success v) :
    (∀ b : ℚ, computeWait b (some hdr) = b) ∧
      with_retry call m = ⟨RetryOutcome.ok v, [1], 2⟩ := by
  have hw : ∀ b : ℚ, computeWait b (some hdr) = b := by
    intro b
    rcases hu with h | ⟨h, h'⟩
    · simp [computeWait, h]
    · simp [computeWait, h, h']
  refine ⟨hw, ?_⟩
  obtain ⟨k, hk⟩ : ∃ k : Nat, m.toNat = k + 2 := ⟨m.toNat - 2, by omega⟩
  rw [with_retry, hk]
  simp [withRetryGo, h0, h1, hw]

/-- The concrete call used to witness C10: rate-limited with an unparseable
`retry-after` value on the first invocation, then successful. -/
def c10Call : Nat → CallResult Nat := fun i =>
  if i = 0 then CallResult.rateLimited (some ⟨some none, none⟩)
  else CallResult.success 7

/-- Witness for C10: the unparseable header is swallowed, the wait is the
initial backoff 1, and the second invocation's result is returned. -/
theorem c10_witness :
    (∀ b : ℚ, computeWait b (some ⟨some none, none⟩) = b) ∧
      with_retry c10Call 2 = ⟨RetryOutcome.ok 7, [1], 2⟩ :=
  c10_unparseable_header_falls_back 2 (by norm_num) c10Call ⟨some none, none⟩
    (Or.inl rfl) 7 rfl rfl

/-!
## HTTP request orchestration (`mainroute` in server.py)
-/

/-- A ChromaDB metadata record as `mainroute` reads it: a `date` field and
a `content` field. -/
structure Meta where
  date : String
  content : String
deriving DecidableEq

/-- The external collaborators of one request as `mainroute` observes them:
the tokenizer encoding chosen by `encoding_for_model` (or its
`cl100k_base` fallback), the embedding provider's behaviour per invocation,
the `metadatas` field of the vector store's query result, and the
chat-completion provider's behaviour per invocation given the user message
content. -/
structure Env where
  enc : String → List Nat
  embed : Nat → CallResult (List ℚ)
  queryMetadatas : List (List Meta)
  completion : String → Nat → CallResult String

/-- How many times each external collaborator runs while serving one
request. -/
structure Trace where
  embedCalls : Nat
  storeQueries : Nat
  completionCalls : Nat
deriving DecidableEq

/-- `TPM_BUDGET = 400_000` from server.py. -/
def TPM_BUDGET : Nat := 400000

/-- `context_budget = TPM_BUDGET - 4_000` from `mainroute`. -/
def context_budget : Nat := TPM_BUDGET - 4000

/-- The 400 body returned for a missing or empty `prompt` parameter. -/
def noPromptMsg : String :=
  "Please provide a prompt using the \x27prompt\x27 query parameter."

/-- The fixed 200 body returned when the vector store yields no matches. -/
def noResultsMsg : String := "No relevant diary entries found."

/-- The `except Exception` handler of `mainroute`: a pipeline failure is
converted to a 500 response carrying the failure's description. -/
def errorBody (msg : String) : String := "An error occurred: " ++ msg

/-- `mainroute` from server.py over one request. `prompt` is the query
parameter (`none` = absent; Python's `if not prompt` also catches the empty
string). Returns the `(body, status)` response and the trace of
collaborator invocations. The descriptions inside 500 bodies abstract
Python's `str(e)`. -/
def mainroute (prompt : Option String) (env : Env) : (String × Nat) × Trace :=
  match prompt with
  | none => ((noPromptMsg, 400), ⟨0, 0, 0⟩)
  | some p =>
    if p = "" then ((noPromptMsg, 400), ⟨0, 0, 0⟩)
    else
      let er := with_retry env.embed 10
      match er.outcome with
      | RetryOutcome.ok _ =>
        match env.queryMetadatas with
        | [] => ((noResultsMsg, 200), ⟨er.calls, 1, 0⟩)
        | ms :: _ =>
          if ms.isEmpty then ((noResultsMsg, 200), ⟨er.calls, 1, 0⟩)
          else
            let docs := ms.map (fun m => (m.date, m.content))
            let knowledge := truncate_documents docs env.enc context_budget
            let userContent :=
              "Here are relevant diary entries:\n" ++ knowledge ++
                "\n\nUser query: " ++ p
            let cr := with_retry (env.completion userContent) 10
            match cr.outcome with
            | RetryOutcome.ok text => ((text, 200), ⟨er.calls, 1, cr.calls⟩)
            | RetryOutcome.exhausted _ =>
              ((errorBody "rate limited", 500), ⟨er.calls, 1, cr.calls⟩)
            | RetryOutcome.failed msg =>
              ((errorBody msg, 500), ⟨er.calls, 1, cr.calls⟩)
            | RetryOutcome.noResult =>
              ((errorBody "no response", 500), ⟨er.calls, 1, cr.calls⟩)
      | RetryOutcome.exhausted _ =>
        ((errorBody "rate limited", 500), ⟨er.calls, 0, 0⟩)
      | RetryOutcome.failed msg => ((errorBody msg, 500), ⟨er.calls, 0, 0⟩)
      | RetryOutcome.noResult => ((errorBody "no response", 500), ⟨er.calls, 0, 0⟩)

/-- A concrete environment whose embedding provider succeeds at once and
whose vector store yields no matches, used to witness the endpoint claims. -/
def sampleEnv : Env where
  enc := charEnc
  embed := fun _ => CallResult.success [1]
  queryMetadatas := []
  completion := fun _ _ => CallResult.success "ok"

/-- C7: if the request reached the vector store (non-empty prompt, the
embedding call succeeded) and the store returned zero matching documents,
the endpoint answers with the fixed no-results message and status 200, and
the completion provider is never invoked. -/
theorem c7_empty_retrieval (env : Env) (p : String) (hp : ¬ p = "")
    (emb : List ℚ)
    (he : (with_retry env.embed 10).outcome = RetryOutcome.ok emb)
    (hq : env.queryMetadatas = [] ∨ ∃ tl, env.queryMetadatas = [] :: tl) :
    (mainroute (some p) env).1 = (noResultsMsg, 200) ∧
      (mainroute (some p) env).2.completionCalls = 0 := by
  have hmr : mainroute (some p) env
      = ((noResultsMsg, 200), ⟨(with_retry env.embed 10).calls, 1, 0⟩) := by
    simp only [mainroute]
    rw [if_neg hp, he]
    rcases hq with h | ⟨tl, h⟩
    · rw [h]
    · rw [h]
      rfl
  rw [hmr]
  exact ⟨rfl, rfl⟩

/-- Witness for C7: a request whose store query yields no matches gets the
fixed message with status 200 and zero completion calls. -/
theorem c7_witness :
    (mainroute (some "hi") sampleEnv).1 = (noResultsMsg, 200) ∧
      (mainroute (some "hi") sampleEnv).2.completionCalls = 0 :=
  c7_empty_retrieval sampleEnv "hi" (by decide) [1] rfl (Or.inl rfl)

/-- C8: a missing or empty `prompt` parameter yields the 400 response
asking for a prompt, with no embedding, vector-store, or completion call. -/
theorem c8_missing_prompt (env : Env) (prompt : Option String)
    (hp : prompt = none ∨ prompt = some "") :
    mainroute prompt env = ((noPromptMsg, 400), ⟨0, 0, 0⟩) := by
  rcases hp with h | h <;> subst h <;> rfl

/-- Witness for C8 at an absent `prompt` parameter. -/
theorem c8_witness :
    mainroute none sampleEnv = ((noPromptMsg, 400), ⟨0, 0, 0⟩) :=
  c8_missing_prompt sampleEnv none (Or.inl rfl)
